import Mathlib

/-!
# Verification of the library checkout/return core

Shallow embedding of the checkout/return transaction workflow of the
library catalog manager (book.py, user.py, check.py).  Timestamps
(`datetime`) are modelled as natural numbers counting days, so that
`timedelta(days = 14)` becomes `+ 14`.  Python `ValueError` exceptions are
modelled by an explicit error type; a method call on a manager becomes a
function from the in-memory state to a pair of the optional raised error
and the state after the call.  Persistence (`storage.py`) only writes the
in-memory collections out and is not part of any claim's behaviour.
-/

namespace Library

/-- `Book` from book.py: `title`, `author`, `item_id` (the isbn, set by
`LibraryItem.__init__`) and the availability flag. -/
structure Book where
  title : String
  author : String
  item_id : String
  is_available : Bool
deriving DecidableEq

/-- `User` from user.py: `name`, `user_id` and the `borrowed_items` list. -/
structure User where
  name : String
  user_id : String
  borrowed_items : List String
deriving DecidableEq

/-- `Checkout` from check.py: user id, item id, checkout date, due date and
the optional return date (`None` while the loan is open). -/
structure Checkout where
  user_id : String
  item_id : String
  checkout_date : Nat
  due_date : Nat
  return_date : Option Nat
deriving DecidableEq

/-- The default loan period: `timedelta(days=14)` in `Checkout.__init__`. -/
def loanPeriod : Nat := 14

/-- `Checkout(user_id, isbn)` as called by `checkout_book`: checkout date
defaults to `datetime.now()`, due date to 14 days later, return date unset. -/
def Checkout.new (uid iid : String) (now : Nat) : Checkout :=
  { user_id := uid, item_id := iid, checkout_date := now,
    due_date := now + loanPeriod, return_date := none }

/-- `Checkout.return_item`: set the return date to the current date. -/
def Checkout.close (c : Checkout) (now : Nat) : Checkout :=
  { c with return_date := some now }

/-- `User.borrow_item`: append the item id unless it is already present. -/
def User.borrow_item (u : User) (iid : String) : User :=
  if u.borrowed_items.contains iid then u
  else { u with borrowed_items := u.borrowed_items ++ [iid] }

/-- `User.return_item`: remove the first occurrence of the item id if
present (`list.remove` guarded by a membership test). -/
def User.return_item (u : User) (iid : String) : User :=
  if u.borrowed_items.contains iid then
    { u with borrowed_items := u.borrowed_items.erase iid }
  else u

/-- `BookManager.get_book_by_isbn`: first book whose `item_id` equals the
isbn, if any (`next(..., None)` over the list). -/
def get_book_by_isbn (books : List Book) (isbn : String) : Option Book :=
  books.find? (fun b => b.item_id == isbn)

/-- `UserManager.get_user_by_id`: first user with the given id, if any. -/
def get_user_by_id (users : List User) (uid : String) : Option User :=
  users.find? (fun u => u.user_id == uid)

/-- In-place mutation `book.is_available = v` of the object returned by
`get_book_by_isbn`: replace the first book whose `item_id` equals `isbn`. -/
def setAvail : List Book → String → Bool → List Book
  | [], _, _ => []
  | b :: bs, isbn, v =>
    if b.item_id == isbn then { b with is_available := v } :: bs
    else b :: setAvail bs isbn v

/-- In-place mutation of the user object returned by `get_user_by_id`:
apply `f` to the first user with the given id. -/
def updateUser : List User → String → (User → User) → List User
  | [], _, _ => []
  | u :: us, uid, f =>
    if u.user_id == uid then f u :: us
    else u :: updateUser us uid f

/-- The predicate of the generator expression in `return_book`:
`c.user_id == user_id and c.item_id == isbn and not c.return_date`. -/
def isOpenFor (c : Checkout) (uid iid : String) : Bool :=
  c.user_id == uid && c.item_id == iid && c.return_date.isNone

/-- In-place mutation `checkout.return_item()` of the first matching open
checkout found by the ledger scan in `return_book`. -/
def closeFirst : List Checkout → String → String → Nat → List Checkout
  | [], _, _, _ => []
  | c :: cs, uid, iid, now =>
    if isOpenFor c uid iid then c.close now :: cs
    else c :: closeFirst cs uid iid now

/-- The `ValueError`s raised by `checkout_book` / `return_book`,
distinguished by their messages. -/
inductive LibError where
  | userNotFound (uid : String)
  | itemNotFound (isbn : String)
  | itemUnavailable (isbn : String)
  | noActiveLoan (uid isbn : String)
deriving DecidableEq

/-- The in-memory state of the three managers: `BookManager.books`,
`UserManager.users` and `CheckoutManager.checkouts`. -/
structure LibState where
  books : List Book
  users : List User
  checkouts : List Checkout
deriving DecidableEq

/-- `CheckoutManager.checkout_book(user_id, isbn)`.  Returns the raised
error (if any) together with the state after the call; every `raise`
happens before any mutation, so the error branches return the state
unchanged, exactly as in the source. -/
def checkout_book (s : LibState) (uid isbn : String) (now : Nat) :
    Option LibError × LibState :=
  match get_user_by_id s.users uid with
  | none => (some (.userNotFound uid), s)
  | some _ =>
    match get_book_by_isbn s.books isbn with
    | none => (some (.itemNotFound isbn), s)
    | some book =>
      if book.is_available then
        (none,
          { checkouts := s.checkouts ++ [Checkout.new uid isbn now],
            books := setAvail s.books isbn false,
            users := updateUser s.users uid (fun u => u.borrow_item isbn) })
      else (some (.itemUnavailable isbn), s)

/-- `CheckoutManager.return_book(user_id, isbn)`. -/
def return_book (s : LibState) (uid isbn : String) (now : Nat) :
    Option LibError × LibState :=
  match get_user_by_id s.users uid with
  | none => (some (.userNotFound uid), s)
  | some _ =>
    match get_book_by_isbn s.books isbn with
    | none => (some (.itemNotFound isbn), s)
    | some _ =>
      match s.checkouts.find? (fun c => isOpenFor c uid isbn) with
      | none => (some (.noActiveLoan uid isbn), s)
      | some _ =>
        (none,
          { checkouts := closeFirst s.checkouts uid isbn now,
            books := setAvail s.books isbn true,
            users := updateUser s.users uid (fun u => u.return_item isbn) })

/-- One request to the checkout manager. -/
inductive Op where
  | checkout (uid isbn : String) (now : Nat)
  | ret (uid isbn : String) (now : Nat)

/-- Apply one request, keeping the state after the call whether or not an
error was raised. -/
def applyOp (s : LibState) : Op → LibState
  | .checkout uid isbn now => (checkout_book s uid isbn now).2
  | .ret uid isbn now => (return_book s uid isbn now).2

/-- Run a sequence of checkout/return requests. -/
def runOps (s : LibState) (ops : List Op) : LibState :=
  ops.foldl applyOp s

/-!
## Serialization

`datetime.isoformat` / `datetime.fromisoformat` are a pair of mutually
inverse injections between timestamps and nonempty strings; with
timestamps modelled as naturals they are modelled by the decimal
rendering of a natural (never the empty string, `"0"` for day zero) and
its parse.  The `to_dict` / `from_dict` record types mirror the JSON
field layout exactly, with `Option` for the `null`-able `return_date`.
-/

/-- Big-endian decimal digits of a natural, with `[0]` for `0` so the
rendering is never empty (an ISO-8601 timestamp string is never empty). -/
def digitsBE (n : Nat) : List Nat :=
  if n = 0 then [0] else (Nat.digits 10 n).reverse

/-- Model of `datetime.isoformat`: render the timestamp as a string. -/
def isoformat (t : Nat) : String :=
  String.mk (List.map Nat.digitChar (digitsBE t))

/-- Model of `datetime.fromisoformat`: parse the rendered timestamp. -/
def fromisoformat (s : String) : Nat :=
  Nat.ofDigits 10 (List.reverse (List.map (fun c => c.toNat - 48) s.data))

/-- The dictionary produced by `Book.to_dict`: keys `title`, `author`,
`isbn`, `is_available`. -/
structure BookRecord where
  title : String
  author : String
  isbn : String
  is_available : Bool
deriving DecidableEq

/-- The dictionary produced by `User.to_dict`: keys `name`, `user_id`,
`borrowed_items`. -/
structure UserRecord where
  name : String
  user_id : String
  borrowed_items : List String
deriving DecidableEq

/-- The dictionary produced by `Checkout.to_dict`: dates are ISO strings,
`return_date` is a string or `null`. -/
structure CheckoutRecord where
  user_id : String
  item_id : String
  checkout_date : String
  due_date : String
  return_date : Option String
deriving DecidableEq

/-- `Book.to_dict`. -/
def Book.to_dict (b : Book) : BookRecord :=
  { title := b.title, author := b.author, isbn := b.item_id,
    is_available := b.is_available }

/-- `Book.from_dict`: `cls(title, author, isbn)` then restore the
availability flag. -/
def Book.from_dict (d : BookRecord) : Book :=
  { title := d.title, author := d.author, item_id := d.isbn,
    is_available := d.is_available }

/-- `User.to_dict`. -/
def User.to_dict (u : User) : UserRecord :=
  { name := u.name, user_id := u.user_id, borrowed_items := u.borrowed_items }

/-- `User.from_dict`: `cls(name, user_id)` then assign `borrowed_items`
verbatim from the record — no deduplication, no validation. -/
def User.from_dict (d : UserRecord) : User :=
  { name := d.name, user_id := d.user_id, borrowed_items := d.borrowed_items }

/-- `Checkout.to_dict`: dates through `isoformat`, `return_date` becomes
`null` when unset (`self.return_date.isoformat() if self.return_date else
None`; a datetime object is always truthy). -/
def Checkout.to_dict (c : Checkout) : CheckoutRecord :=
  { user_id := c.user_id, item_id := c.item_id,
    checkout_date := isoformat c.checkout_date,
    due_date := isoformat c.due_date,
    return_date := c.return_date.map isoformat }

/-- `Checkout.from_dict`: rebuild via the constructor with parsed dates,
then set `return_date` only when the stored value is truthy
(`if data["return_date"]:` — `null` and the empty string are falsy). -/
def Checkout.from_dict (d : CheckoutRecord) : Checkout :=
  let c : Checkout :=
    { user_id := d.user_id, item_id := d.item_id,
      checkout_date := fromisoformat d.checkout_date,
      due_date := fromisoformat d.due_date, return_date := none }
  match d.return_date with
  | some str => if str = "" then c else { c with return_date := some (fromisoformat str) }
  | none => c

/-!
## Invariants

Decidable statements of the cross-entity invariants of §3/§8 of the
specification, phrased over the in-memory state.
-/

/-- Number of open checkouts in the ledger for a given item id. -/
def openCount (cs : List Checkout) (iid : String) : Nat :=
  (cs.filter (fun c => c.item_id == iid && c.return_date.isNone)).length

/-- The mutual-exclusion property exactly as claimed: a book is
unavailable iff there is exactly one open checkout of its isbn. -/
def availInv (s : LibState) : Prop :=
  ∀ b ∈ s.books, b.is_available = false ↔ openCount s.checkouts b.item_id = 1

/-- The inductive strengthening: an available book has no open checkout,
an unavailable book exactly one. -/
def availInvStrong (s : LibState) : Prop :=
  ∀ b ∈ s.books, openCount s.checkouts b.item_id = if b.is_available then 0 else 1

/-- Data-model well-formedness of §3: item ids are unique. -/
def booksNodup (s : LibState) : Prop :=
  (s.books.map (fun b => b.item_id)).Nodup

/-- Data-model well-formedness of §3: user ids are unique. -/
def usersNodup (s : LibState) : Prop :=
  (s.users.map (fun u => u.user_id)).Nodup

/-- Number of open checkouts in the ledger for a given (user, item) pair. -/
def openPairCount (cs : List Checkout) (uid iid : String) : Nat :=
  (cs.filter (fun c => isOpenFor c uid iid)).length

/-- At most one open checkout per (user, item) pair. -/
def pairAtMostOne (cs : List Checkout) : Prop :=
  ∀ c ∈ cs, c.return_date = none → openPairCount cs c.user_id c.item_id ≤ 1

/-- The set-consistency property as claimed: every `borrowed_items` list
is duplicate-free and equals, as a set, the item ids of that user's open
checkouts. -/
def heldInv (s : LibState) : Prop :=
  ∀ u ∈ s.users, u.borrowed_items.Nodup ∧
    (∀ iid ∈ u.borrowed_items, ∃ c ∈ s.checkouts, isOpenFor c u.user_id iid = true) ∧
    (∀ c ∈ s.checkouts, c.user_id = u.user_id → c.return_date = none →
      c.item_id ∈ u.borrowed_items)

instance (s : LibState) : Decidable (availInv s) := by
  unfold availInv; infer_instance

instance (s : LibState) : Decidable (availInvStrong s) := by
  unfold availInvStrong; infer_instance

instance (s : LibState) : Decidable (booksNodup s) := by
  unfold booksNodup; infer_instance

instance (s : LibState) : Decidable (usersNodup s) := by
  unfold usersNodup; infer_instance

instance (cs : List Checkout) : Decidable (pairAtMostOne cs) := by
  unfold pairAtMostOne; infer_instance

instance (s : LibState) : Decidable (heldInv s) := by
  unfold heldInv; infer_instance

/-!
## Structural lemmas about the first-match mutation helpers
-/

lemma find?_first {α} (p : α → Bool) (l1 : List α) (a : α) (l2 : List α)
    (h1 : ∀ x ∈ l1, p x = false) (ha : p a = true) :
    (l1 ++ a :: l2).find? p = some a := by
  induction l1 with
  | nil => simp [List.find?_cons_of_pos _ ha]
  | cons x xs ih =>
    have hx : p x = false := h1 x (by simp)
    rw [List.cons_append, List.find?_cons_of_neg _ (by simp [hx])]
    exact ih fun y hy => h1 y (by simp [hy])

lemma find?_decomp {α} (p : α → Bool) (l : List α) (a : α)
    (h : l.find? p = some a) :
    ∃ l1 l2, l = l1 ++ a :: l2 ∧ (∀ x ∈ l1, p x = false) ∧ p a = true := by
  induction l with
  | nil => simp [List.find?] at h
  | cons x xs ih =>
    by_cases hx : p x = true
    · rw [List.find?_cons_of_pos _ hx, Option.some.injEq] at h
      subst h
      exact ⟨[], xs, rfl, by simp, hx⟩
    · rw [List.find?_cons_of_neg _ hx] at h
      obtain ⟨l1, l2, hl, h1, ha⟩ := ih h
      refine ⟨x :: l1, l2, by simp [hl], ?_, ha⟩
      intro y hy
      rcases List.mem_cons.mp hy with rfl | hy'
      · simpa using hx
      · exact h1 y hy'

lemma get_book_isbn_eq {books : List Book} {isbn : String} {b : Book}
    (h : get_book_by_isbn books isbn = some b) : b.item_id = isbn := by
  have := List.find?_some h
  simpa using this

lemma get_user_uid_eq {users : List User} {uid : String} {u : User}
    (h : get_user_by_id users uid = some u) : u.user_id = uid := by
  have := List.find?_some h
  simpa using this

lemma setAvail_append (l1 : List Book) (b : Book) (l2 : List Book)
    (isbn : String) (v : Bool)
    (h1 : ∀ b' ∈ l1, (b'.item_id == isbn) = false) (hb : b.item_id = isbn) :
    setAvail (l1 ++ b :: l2) isbn v = l1 ++ { b with is_available := v } :: l2 := by
  induction l1 with
  | nil => simp [setAvail, hb]
  | cons x xs ih =>
    have hx : (x.item_id == isbn) = false := h1 x (by simp)
    have ih' := ih fun y hy => h1 y (by simp [hy])
    simp only [List.cons_append, setAvail, hx]
    simp [ih']

lemma setAvail_decomp {books : List Book} {isbn : String} {b : Book}
    (h : get_book_by_isbn books isbn = some b) (v : Bool) :
    ∃ l1 l2, books = l1 ++ b :: l2 ∧ (∀ b' ∈ l1, (b'.item_id == isbn) = false) ∧
      setAvail books isbn v = l1 ++ { b with is_available := v } :: l2 := by
  obtain ⟨l1, l2, hl, h1, hb⟩ := find?_decomp _ _ _ h
  exact ⟨l1, l2, hl, h1, by rw [hl, setAvail_append l1 b l2 isbn v h1 (by simpa using hb)]⟩

lemma updateUser_append (l1 : List User) (u : User) (l2 : List User)
    (uid : String) (f : User → User)
    (h1 : ∀ u' ∈ l1, (u'.user_id == uid) = false) (hu : u.user_id = uid) :
    updateUser (l1 ++ u :: l2) uid f = l1 ++ f u :: l2 := by
  induction l1 with
  | nil => simp [updateUser, hu]
  | cons x xs ih =>
    have hx : (x.user_id == uid) = false := h1 x (by simp)
    have ih' := ih fun y hy => h1 y (by simp [hy])
    simp only [List.cons_append, updateUser, hx]
    simp [ih']

lemma updateUser_decomp {users : List User} {uid : String} {u : User}
    (h : get_user_by_id users uid = some u) (f : User → User) :
    ∃ l1 l2, users = l1 ++ u :: l2 ∧ (∀ u' ∈ l1, (u'.user_id == uid) = false) ∧
      updateUser users uid f = l1 ++ f u :: l2 := by
  obtain ⟨l1, l2, hl, h1, hu⟩ := find?_decomp _ _ _ h
  exact ⟨l1, l2, hl, h1, by rw [hl, updateUser_append l1 u l2 uid f h1 (by simpa using hu)]⟩

lemma closeFirst_append (m1 : List Checkout) (c : Checkout) (m2 : List Checkout)
    (uid isbn : String) (now : Nat)
    (h1 : ∀ c' ∈ m1, isOpenFor c' uid isbn = false) (hc : isOpenFor c uid isbn = true) :
    closeFirst (m1 ++ c :: m2) uid isbn now = m1 ++ c.close now :: m2 := by
  induction m1 with
  | nil => simp [closeFirst, hc]
  | cons x xs ih =>
    have hx : isOpenFor x uid isbn = false := h1 x (by simp)
    have ih' := ih fun y hy => h1 y (by simp [hy])
    simp only [List.cons_append, closeFirst, hx]
    simp [ih']

lemma isOpenFor_iff {c : Checkout} {uid iid : String} :
    isOpenFor c uid iid = true ↔
      c.user_id = uid ∧ c.item_id = iid ∧ c.return_date = none := by
  simp [isOpenFor, Option.isNone_iff_eq_none, and_assoc]

lemma setAvail_map_item_id (books : List Book) (isbn : String) (v : Bool) :
    (setAvail books isbn v).map (fun b => b.item_id) = books.map (fun b => b.item_id) := by
  induction books with
  | nil => rfl
  | cons b bs ih =>
    by_cases hb : (b.item_id == isbn) = true
    · simp [setAvail, hb]
    · simp only [setAvail, Bool.not_eq_true] at hb ⊢
      rw [if_neg (by simp [hb])]
      simp [ih]

lemma nodup_middle_ne {α β} [DecidableEq β] (f : α → β) (l1 : List α) (a : α)
    (l2 : List α) (h : ((l1 ++ a :: l2).map f).Nodup) :
    ∀ x ∈ l2, f x ≠ f a := by
  intro x hx hfx
  rw [List.map_append, List.map_cons] at h
  have h2 := (List.nodup_append.mp h).2.1
  have := (List.nodup_cons.mp h2).1
  exact this (hfx ▸ List.mem_map_of_mem f hx)

/-!
## Counting open checkouts
-/

lemma openCount_nil (iid : String) : openCount [] iid = 0 := rfl

lemma openCount_cons (c : Checkout) (cs : List Checkout) (iid : String) :
    openCount (c :: cs) iid =
      (if c.item_id = iid ∧ c.return_date = none then 1 else 0) + openCount cs iid := by
  unfold openCount
  rw [List.filter_cons]
  by_cases h : c.item_id = iid ∧ c.return_date = none
  · rw [if_pos (by simp [h.1, h.2]), if_pos h, List.length_cons]
    omega
  · rw [if_neg ?_, if_neg h]
    · omega
    · simp only [Bool.and_eq_true, beq_iff_eq, Option.isNone_iff_eq_none]
      exact fun hc => h ⟨hc.1, hc.2⟩

lemma openCount_append (cs ds : List Checkout) (iid : String) :
    openCount (cs ++ ds) iid = openCount cs iid + openCount ds iid := by
  unfold openCount
  rw [List.filter_append, List.length_append]

lemma openCount_pos_of_mem {c : Checkout} {cs : List Checkout} {iid : String}
    (hm : c ∈ cs) (hi : c.item_id = iid) (hr : c.return_date = none) :
    1 ≤ openCount cs iid := by
  unfold openCount
  have : c ∈ cs.filter (fun c => c.item_id == iid && c.return_date.isNone) :=
    List.mem_filter.mpr ⟨hm, by simp [hi, hr]⟩
  have := List.length_pos.mpr (List.ne_nil_of_mem this)
  omega

lemma openPairCount_cons (c : Checkout) (cs : List Checkout) (uid iid : String) :
    openPairCount (c :: cs) uid iid =
      (if isOpenFor c uid iid = true then 1 else 0) + openPairCount cs uid iid := by
  unfold openPairCount
  rw [List.filter_cons]
  by_cases h : isOpenFor c uid iid = true
  · rw [if_pos h, if_pos h, List.length_cons]; omega
  · rw [if_neg h, if_neg h]; omega

lemma openPairCount_append (cs ds : List Checkout) (uid iid : String) :
    openPairCount (cs ++ ds) uid iid =
      openPairCount cs uid iid + openPairCount ds uid iid := by
  unfold openPairCount
  rw [List.filter_append, List.length_append]

lemma openPairCount_eq_zero {cs : List Checkout} {uid iid : String} :
    openPairCount cs uid iid = 0 ↔ ∀ c ∈ cs, isOpenFor c uid iid = false := by
  unfold openPairCount
  rw [List.length_eq_zero, List.filter_eq_nil_iff]
  constructor
  · intro h c hc
    simpa using h c hc
  · intro h c hc
    simp [h c hc]

/-!
## Small lemmas about the user mutators
-/

lemma borrow_item_user_id (u : User) (iid : String) :
    (u.borrow_item iid).user_id = u.user_id := by
  unfold User.borrow_item
  split <;> rfl

lemma return_item_user_id (u : User) (iid : String) :
    (u.return_item iid).user_id = u.user_id := by
  unfold User.return_item
  split <;> rfl

lemma mem_borrow_item (u : User) (iid : String) :
    iid ∈ (u.borrow_item iid).borrowed_items := by
  unfold User.borrow_item
  split
  · next h => exact List.mem_of_elem_eq_true h
  · simp

lemma borrow_item_subset (u : User) (iid : String) :
    u.borrowed_items ⊆ (u.borrow_item iid).borrowed_items := by
  unfold User.borrow_item
  split
  · exact fun _ h => h
  · exact fun x hx => List.mem_append_left _ hx

lemma mem_borrow_item_iff (u : User) (iid x : String) :
    x ∈ (u.borrow_item iid).borrowed_items ↔ x ∈ u.borrowed_items ∨ x = iid := by
  unfold User.borrow_item
  split
  · next h =>
    constructor
    · exact fun hx => Or.inl hx
    · rintro (hx | rfl)
      · exact hx
      · exact List.mem_of_elem_eq_true h
  · simp

lemma borrow_item_nodup {u : User} (hn : u.borrowed_items.Nodup) (iid : String) :
    (u.borrow_item iid).borrowed_items.Nodup := by
  unfold User.borrow_item
  split
  · exact hn
  · next h =>
    have : iid ∉ u.borrowed_items := by
      intro hm
      exact h (List.elem_eq_true_of_mem hm)
    rw [List.nodup_append]
    exact ⟨hn, List.nodup_singleton iid, by simpa [List.Disjoint] using fun a ha hb => this (by simpa using hb ▸ ha)⟩

lemma return_item_borrowed (u : User) (iid : String) :
    (u.return_item iid).borrowed_items = u.borrowed_items.erase iid := by
  unfold User.return_item
  split
  · rfl
  · next h =>
    have : iid ∉ u.borrowed_items := fun hm => h (List.elem_eq_true_of_mem hm)
    rw [List.erase_of_not_mem this]

lemma return_item_eq (u : User) (iid : String) :
    u.return_item iid = { u with borrowed_items := u.borrowed_items.erase iid } := by
  unfold User.return_item
  split
  · rfl
  · next h =>
    have : iid ∉ u.borrowed_items := fun hm => h (List.elem_eq_true_of_mem hm)
    rw [List.erase_of_not_mem this]

/-!
## The timestamp rendering is injective with explicit inverse
-/

lemma digitChar_inv (d : Nat) (h : d < 10) : (Nat.digitChar d).toNat - 48 = d := by
  interval_cases d <;> rfl

lemma fromiso_iso (t : Nat) : fromisoformat (isoformat t) = t := by
  unfold fromisoformat isoformat
  have hdata : (String.mk (List.map Nat.digitChar (digitsBE t))).data
      = List.map Nat.digitChar (digitsBE t) := rfl
  rw [hdata, List.map_map]
  have hmap : List.map ((fun c => c.toNat - 48) ∘ Nat.digitChar) (digitsBE t)
      = digitsBE t := by
    apply List.map_congr_left ?_ |>.trans (List.map_id _)
    intro d hd
    apply digitChar_inv
    unfold digitsBE at hd
    by_cases ht : t = 0
    · simp [ht] at hd; omega
    · rw [if_neg ht, List.mem_reverse] at hd
      exact Nat.digits_lt_base (by norm_num) hd
  rw [hmap]
  unfold digitsBE
  by_cases ht : t = 0
  · simp [ht, Nat.ofDigits]
  · rw [if_neg ht, List.reverse_reverse, Nat.ofDigits_digits]

lemma iso_ne_empty (t : Nat) : isoformat t ≠ "" := by
  unfold isoformat
  intro h
  have h2 : List.map Nat.digitChar (digitsBE t) = [] := by
    simpa using congrArg String.data h
  have h3 : digitsBE t = [] := by simpa using h2
  unfold digitsBE at h3
  by_cases ht : t = 0
  · simp [ht] at h3
  · rw [if_neg ht] at h3
    rw [List.reverse_eq_nil_iff] at h3
    exact Nat.digits_ne_nil_iff_ne_zero.mpr ht h3

/-!
## The strengthened availability invariant implies the claimed one
-/

lemma availInvStrong_to_availInv {s : LibState} (h : availInvStrong s) : availInv s := by
  intro b hb
  have hcount := h b hb
  cases hav : b.is_available with
  | true =>
    rw [hav, if_pos rfl] at hcount
    constructor
    · intro hfalse; cases hfalse
    · intro h1; rw [hcount] at h1; cases h1
  | false =>
    rw [hav, if_neg (by simp)] at hcount
    exact ⟨fun _ => hcount, fun _ => rfl⟩

lemma borrow_item_of_mem {u : User} {iid : String} (h : iid ∈ u.borrowed_items) :
    u.borrow_item iid = u := by
  unfold User.borrow_item
  rw [if_pos (List.elem_eq_true_of_mem h)]

lemma get_book_setAvail {books : List Book} {isbn : String} {b : Book} (v : Bool)
    (h : get_book_by_isbn books isbn = some b) :
    get_book_by_isbn (setAvail books isbn v) isbn = some { b with is_available := v } := by
  obtain ⟨l1, l2, _, h1, hset⟩ := setAvail_decomp h v
  rw [hset]
  exact find?_first _ l1 _ l2 h1 (by simp [get_book_isbn_eq h])

lemma get_user_updateUser {users : List User} {uid : String} {u : User}
    (f : User → User) (h : get_user_by_id users uid = some u)
    (hf : (f u).user_id = u.user_id) :
    get_user_by_id (updateUser users uid f) uid = some (f u) := by
  obtain ⟨l1, l2, _, h1, hup⟩ := updateUser_decomp h f
  rw [hup]
  exact find?_first _ l1 _ l2 h1 (by simp [hf, get_user_uid_eq h])

lemma mem_setAvail_of_ne {books : List Book} {isbn : String} {v : Bool} {b : Book}
    (hm : b ∈ books) (hne : b.item_id ≠ isbn) : b ∈ setAvail books isbn v := by
  induction books with
  | nil => cases hm
  | cons x xs ih =>
    by_cases hx : (x.item_id == isbn) = true
    · rcases List.mem_cons.mp hm with rfl | hm'
      · exact absurd (by simpa using hx) hne
      · simp only [setAvail, hx, if_true]
        exact List.mem_cons_of_mem _ hm'
    · simp only [setAvail, Bool.not_eq_true] at hx ⊢
      rw [if_neg (by simp [hx])]
      rcases List.mem_cons.mp hm with rfl | hm'
      · exact List.mem_cons_self _ _
      · exact List.mem_cons_of_mem _ (ih hm')

lemma mem_updateUser_of_ne {users : List User} {uid : String} {f : User → User} {u : User}
    (hm : u ∈ users) (hne : u.user_id ≠ uid) : u ∈ updateUser users uid f := by
  induction users with
  | nil => cases hm
  | cons x xs ih =>
    by_cases hx : (x.user_id == uid) = true
    · rcases List.mem_cons.mp hm with rfl | hm'
      · exact absurd (by simpa using hx) hne
      · simp only [updateUser, hx, if_true]
        exact List.mem_cons_of_mem _ hm'
    · simp only [updateUser, Bool.not_eq_true] at hx ⊢
      rw [if_neg (by simp [hx])]
      rcases List.mem_cons.mp hm with rfl | hm'
      · exact List.mem_cons_self _ _
      · exact List.mem_cons_of_mem _ (ih hm')

lemma checkout_cases (s : LibState) (uid isbn : String) (now : Nat) :
    (checkout_book s uid isbn now).2 = s ∨
    (∃ u b, get_user_by_id s.users uid = some u ∧
      get_book_by_isbn s.books isbn = some b ∧ b.is_available = true ∧
      (checkout_book s uid isbn now).2.checkouts
        = s.checkouts ++ [Checkout.new uid isbn now] ∧
      (checkout_book s uid isbn now).2.books = setAvail s.books isbn false ∧
      (checkout_book s uid isbn now).2.users
        = updateUser s.users uid (fun u => u.borrow_item isbn)) := by
  cases hu : get_user_by_id s.users uid with
  | none => left; simp [checkout_book, hu]
  | some u =>
    cases hb : get_book_by_isbn s.books isbn with
    | none => left; simp [checkout_book, hu, hb]
    | some b =>
      cases hav : b.is_available with
      | true =>
        right
        refine ⟨u, b, rfl, rfl, hav, ?_, ?_, ?_⟩ <;> simp [checkout_book, hu, hb, hav]
      | false => left; simp [checkout_book, hu, hb, hav]

lemma return_cases (s : LibState) (uid isbn : String) (now : Nat) :
    (return_book s uid isbn now).2 = s ∨
    (∃ u b c0, get_user_by_id s.users uid = some u ∧
      get_book_by_isbn s.books isbn = some b ∧
      s.checkouts.find? (fun c => isOpenFor c uid isbn) = some c0 ∧
      (return_book s uid isbn now).2.checkouts = closeFirst s.checkouts uid isbn now ∧
      (return_book s uid isbn now).2.books = setAvail s.books isbn true ∧
      (return_book s uid isbn now).2.users
        = updateUser s.users uid (fun u => u.return_item isbn)) := by
  cases hu : get_user_by_id s.users uid with
  | none => left; simp [return_book, hu]
  | some u =>
    cases hb : get_book_by_isbn s.books isbn with
    | none => left; simp [return_book, hu, hb]
    | some b =>
      cases hf : s.checkouts.find? (fun c => isOpenFor c uid isbn) with
      | none => left; simp [return_book, hu, hb, hf]
      | some c0 =>
        right
        refine ⟨u, b, c0, rfl, rfl, rfl, ?_, ?_, ?_⟩ <;> simp [return_book, hu, hb, hf]

lemma openCount_new (uid isbn : String) (now : Nat) (iid : String) :
    openCount [Checkout.new uid isbn now] iid = if isbn = iid then 1 else 0 := by
  rw [openCount_cons, openCount_nil]
  by_cases h : isbn = iid <;> simp [Checkout.new, h]

lemma checkout_avail_preserved (s : LibState) (uid isbn : String) (now : Nat)
    (hN : booksNodup s) (hI : availInvStrong s) :
    booksNodup (checkout_book s uid isbn now).2 ∧
      availInvStrong (checkout_book s uid isbn now).2 := by
  rcases checkout_cases s uid isbn now with h | ⟨u0, b0, hu, hb, hav, hck, hbk, hus⟩
  · rw [h]; exact ⟨hN, hI⟩
  · have hbid : b0.item_id = isbn := get_book_isbn_eq hb
    obtain ⟨l1, l2, hbooks, hl1, hset⟩ := setAvail_decomp hb false
    have hl2 : ∀ b' ∈ l2, b'.item_id ≠ isbn := by
      intro b' hb'
      have hne := nodup_middle_ne (fun b => b.item_id) l1 b0 l2 (hbooks ▸ hN) b' hb'
      simpa [hbid] using hne
    constructor
    · unfold booksNodup at hN ⊢
      rw [hbk, setAvail_map_item_id]
      exact hN
    · intro b' hb'
      rw [hbk, hset] at hb'
      rw [hck, openCount_append, openCount_new]
      rcases List.mem_append.mp hb' with hbl1 | hbc
      · have hne : b'.item_id ≠ isbn := by simpa using hl1 b' hbl1
        rw [if_neg (fun he => hne he.symm), Nat.add_zero]
        exact hI b' (by rw [hbooks]; exact List.mem_append_left _ hbl1)
      · rcases List.mem_cons.mp hbc with rfl | hbl2
        · have hc0 : openCount s.checkouts isbn = 0 := by
            have hIb0 := hI b0 (by rw [hbooks]; exact List.mem_append_right _ (List.mem_cons_self _ _))
            rw [hbid] at hIb0
            simpa [hav] using hIb0
          simp [hbid, hc0]
        · have hne := hl2 b' hbl2
          rw [if_neg (fun he => hne he.symm), Nat.add_zero]
          exact hI b' (by rw [hbooks]; exact List.mem_append_right _ (List.mem_cons_of_mem _ hbl2))

lemma return_avail_preserved (s : LibState) (uid isbn : String) (now : Nat)
    (hN : booksNodup s) (hI : availInvStrong s) :
    booksNodup (return_book s uid isbn now).2 ∧
      availInvStrong (return_book s uid isbn now).2 := by
  rcases return_cases s uid isbn now with h | ⟨u0, b0, c0, hu, hb, hf, hck, hbk, hus⟩
  · rw [h]; exact ⟨hN, hI⟩
  · have hbid : b0.item_id = isbn := get_book_isbn_eq hb
    have hp0 : isOpenFor c0 uid isbn = true := by simpa using List.find?_some hf
    obtain ⟨hcu, hci, hcr⟩ := isOpenFor_iff.mp hp0
    have hc0mem : c0 ∈ s.checkouts := List.mem_of_find?_eq_some hf
    have h1le : 1 ≤ openCount s.checkouts isbn := openCount_pos_of_mem hc0mem hci hcr
    have hb0mem : b0 ∈ s.books := List.mem_of_find?_eq_some hb
    have hbav : b0.is_available = false := by
      have hIb0 := hI b0 hb0mem
      cases hba : b0.is_available
      · rfl
      · rw [hba, if_pos rfl, hbid] at hIb0
        omega
    have hcount1 : openCount s.checkouts isbn = 1 := by
      have hIb0 := hI b0 hb0mem
      rw [hbav, hbid] at hIb0
      simpa using hIb0
    obtain ⟨m1, m2, hdec, hm1, hp⟩ := find?_decomp _ _ _ hf
    have hclose : closeFirst s.checkouts uid isbn now = m1 ++ c0.close now :: m2 := by
      rw [hdec]
      exact closeFirst_append m1 c0 m2 uid isbn now hm1 hp
    obtain ⟨l1, l2, hbooks, hl1, hset⟩ := setAvail_decomp hb true
    have hl2 : ∀ b' ∈ l2, b'.item_id ≠ isbn := by
      intro b' hb'
      have hne := nodup_middle_ne (fun b => b.item_id) l1 b0 l2 (hbooks ▸ hN) b' hb'
      simpa [hbid] using hne
    have hother : ∀ iid, iid ≠ isbn →
        openCount (m1 ++ c0.close now :: m2) iid = openCount s.checkouts iid := by
      intro iid hne
      have h1 : ¬((c0.close now).item_id = iid ∧ (c0.close now).return_date = none) := by
        rintro ⟨-, h2⟩
        simp [Checkout.close] at h2
      have h2 : ¬(c0.item_id = iid ∧ c0.return_date = none) := by
        rintro ⟨h3, -⟩
        exact hne (by rw [← h3, hci])
      rw [hdec, openCount_append, openCount_append, openCount_cons, openCount_cons,
        if_neg h1, if_neg h2]
    constructor
    · unfold booksNodup at hN ⊢
      rw [hbk, setAvail_map_item_id]
      exact hN
    · intro b' hb'
      rw [hbk, hset] at hb'
      rw [hck, hclose]
      rcases List.mem_append.mp hb' with hbl1 | hbc
      · have hne : b'.item_id ≠ isbn := by simpa using hl1 b' hbl1
        rw [hother _ hne]
        exact hI b' (by rw [hbooks]; exact List.mem_append_left _ hbl1)
      · rcases List.mem_cons.mp hbc with rfl | hbl2
        · have hz : openCount (m1 ++ c0.close now :: m2) isbn = 0 := by
            have hsum := hcount1
            rw [hdec, openCount_append, openCount_cons, if_pos ⟨hci, hcr⟩] at hsum
            rw [openCount_append, openCount_cons,
              if_neg (fun hcc => by simpa [Checkout.close] using hcc.2)]
            omega
          simpa [hbid] using hz
        · have hne := hl2 b' hbl2
          rw [hother _ hne]
          exact hI b' (by rw [hbooks]; exact List.mem_append_right _ (List.mem_cons_of_mem _ hbl2))

lemma checkout_held_preserved (s : LibState) (uid isbn : String) (now : Nat)
    (hN : usersNodup s) (hI : heldInv s) :
    heldInv (checkout_book s uid isbn now).2 := by
  rcases checkout_cases s uid isbn now with h | ⟨u0, b0, hu, hb, hav, hck, hbk, hus⟩
  · rw [h]; exact hI
  · have huid : u0.user_id = uid := get_user_uid_eq hu
    obtain ⟨l1, l2, husers, hl1, hup⟩ := updateUser_decomp hu (fun u => u.borrow_item isbn)
    have hl2 : ∀ u' ∈ l2, u'.user_id ≠ uid := by
      intro u' hu'
      have hne := nodup_middle_ne (fun u => u.user_id) l1 u0 l2 (husers ▸ hN) u' hu'
      simpa [huid] using hne
    intro u' hu'
    rw [hus, hup] at hu'
    rw [hck]
    rcases List.mem_append.mp hu' with hul1 | huc
    · have hne : u'.user_id ≠ uid := by simpa using hl1 u' hul1
      obtain ⟨hnd, hfwd, hbwd⟩ :=
        hI u' (by rw [husers]; exact List.mem_append_left _ hul1)
      refine ⟨hnd, ?_, ?_⟩
      · intro iid hiid
        obtain ⟨c, hc, hop⟩ := hfwd iid hiid
        exact ⟨c, List.mem_append_left _ hc, hop⟩
      · intro c hc hcuid hcrd
        rcases List.mem_append.mp hc with hc' | hc'
        · exact hbwd c hc' hcuid hcrd
        · rw [List.mem_singleton] at hc'
          subst hc'
          exact absurd hcuid.symm hne
    · rcases List.mem_cons.mp huc with rfl | hul2
      · obtain ⟨hnd, hfwd, hbwd⟩ :=
          hI u0 (by rw [husers]; exact List.mem_append_right _ (List.mem_cons_self _ _))
        refine ⟨borrow_item_nodup hnd isbn, ?_, ?_⟩
        · intro iid hiid
          rw [borrow_item_user_id]
          rcases (mem_borrow_item_iff u0 isbn iid).mp hiid with hold | rfl
          · obtain ⟨c, hc, hop⟩ := hfwd iid hold
            exact ⟨c, List.mem_append_left _ hc, hop⟩
          · refine ⟨Checkout.new uid iid now,
              List.mem_append_right _ (List.mem_singleton_self _), ?_⟩
            rw [huid]
            simp [isOpenFor, Checkout.new]
        · intro c hc hcuid hcrd
          rw [borrow_item_user_id] at hcuid
          rcases List.mem_append.mp hc with hc' | hc'
          · exact borrow_item_subset u0 isbn (hbwd c hc' hcuid hcrd)
          · rw [List.mem_singleton] at hc'
            subst hc'
            exact mem_borrow_item u0 isbn
      · have hne := hl2 u' hul2
        obtain ⟨hnd, hfwd, hbwd⟩ :=
          hI u' (by rw [husers]; exact List.mem_append_right _ (List.mem_cons_of_mem _ hul2))
        refine ⟨hnd, ?_, ?_⟩
        · intro iid hiid
          obtain ⟨c, hc, hop⟩ := hfwd iid hiid
          exact ⟨c, List.mem_append_left _ hc, hop⟩
        · intro c hc hcuid hcrd
          rcases List.mem_append.mp hc with hc' | hc'
          · exact hbwd c hc' hcuid hcrd
          · rw [List.mem_singleton] at hc'
            subst hc'
            exact absurd hcuid.symm hne

lemma return_held_preserved (s : LibState) (uid isbn : String) (now : Nat)
    (hN : usersNodup s) (hP : pairAtMostOne s.checkouts) (hI : heldInv s) :
    heldInv (return_book s uid isbn now).2 := by
  rcases return_cases s uid isbn now with h | ⟨u0, b0, c0, hu, hb, hf, hck, hbk, hus⟩
  · rw [h]; exact hI
  · have huid : u0.user_id = uid := get_user_uid_eq hu
    have hp0 : isOpenFor c0 uid isbn = true := by simpa using List.find?_some hf
    obtain ⟨hcu, hci, hcr⟩ := isOpenFor_iff.mp hp0
    have hc0mem : c0 ∈ s.checkouts := List.mem_of_find?_eq_some hf
    obtain ⟨m1, m2, hdec, hm1, hp⟩ := find?_decomp _ _ _ hf
    have hclose : closeFirst s.checkouts uid isbn now = m1 ++ c0.close now :: m2 := by
      rw [hdec]
      exact closeFirst_append m1 c0 m2 uid isbn now hm1 hp
    have hple : openPairCount s.checkouts uid isbn ≤ 1 := by
      have hh := hP c0 hc0mem hcr
      rw [hcu, hci] at hh
      exact hh
    have hm1z : openPairCount m1 uid isbn = 0 ∧ openPairCount m2 uid isbn = 0 := by
      rw [hdec, openPairCount_append, openPairCount_cons, if_pos hp0] at hple
      omega
    have hm1no : ∀ c ∈ m1, isOpenFor c uid isbn = false :=
      openPairCount_eq_zero.mp hm1z.1
    have hm2no : ∀ c ∈ m2, isOpenFor c uid isbn = false :=
      openPairCount_eq_zero.mp hm1z.2
    obtain ⟨l1, l2, husers, hl1, hup⟩ := updateUser_decomp hu (fun u => u.return_item isbn)
    have hl2 : ∀ u' ∈ l2, u'.user_id ≠ uid := by
      intro u' hu'
      have hne := nodup_middle_ne (fun u => u.user_id) l1 u0 l2 (husers ▸ hN) u' hu'
      simpa [huid] using hne
    intro u' hu'
    rw [hus, hup] at hu'
    rw [hck, hclose]
    rcases List.mem_append.mp hu' with hul1 | huc
    · have hne : u'.user_id ≠ uid := by simpa using hl1 u' hul1
      obtain ⟨hnd, hfwd, hbwd⟩ :=
        hI u' (by rw [husers]; exact List.mem_append_left _ hul1)
      refine ⟨hnd, ?_, ?_⟩
      · intro iid hiid
        obtain ⟨c, hc, hop⟩ := hfwd iid hiid
        have hcne : c ≠ c0 := by
          intro he
          subst he
          obtain ⟨h1, -, -⟩ := isOpenFor_iff.mp hop
          exact hne (by rw [← h1]; exact hcu)
        refine ⟨c, ?_, hop⟩
        rw [hdec] at hc
        rcases List.mem_append.mp hc with h1 | h2
        · exact List.mem_append_left _ h1
        · rcases List.mem_cons.mp h2 with rfl | h3
          · exact absurd rfl hcne
          · exact List.mem_append_right _ (List.mem_cons_of_mem _ h3)
      · intro c hc hcuid hcrd
        rcases List.mem_append.mp hc with h1 | h2
        · exact hbwd c (by rw [hdec]; exact List.mem_append_left _ h1) hcuid hcrd
        · rcases List.mem_cons.mp h2 with rfl | h3
          · simp [Checkout.close] at hcrd
          · exact hbwd c
              (by rw [hdec]; exact List.mem_append_right _ (List.mem_cons_of_mem _ h3))
              hcuid hcrd
    · rcases List.mem_cons.mp huc with rfl | hul2
      · obtain ⟨hnd, hfwd, hbwd⟩ :=
          hI u0 (by rw [husers]; exact List.mem_append_right _ (List.mem_cons_self _ _))
        refine ⟨?_, ?_, ?_⟩
        · rw [return_item_borrowed]
          exact hnd.erase isbn
        · intro iid hiid
          rw [return_item_borrowed] at hiid
          have hne' : iid ≠ isbn := by
            intro he
            subst he
            exact (hnd.mem_erase_iff.mp hiid).1 rfl
          obtain ⟨c, hc, hop⟩ := hfwd iid (List.mem_of_mem_erase hiid)
          have hcne : c ≠ c0 := by
            intro he
            subst he
            obtain ⟨-, h2, -⟩ := isOpenFor_iff.mp hop
            exact hne' (by rw [← h2, hci])
          refine ⟨c, ?_, ?_⟩
          · rw [hdec] at hc
            rcases List.mem_append.mp hc with h1 | h2
            · exact List.mem_append_left _ h1
            · rcases List.mem_cons.mp h2 with rfl | h3
              · exact absurd rfl hcne
              · exact List.mem_append_right _ (List.mem_cons_of_mem _ h3)
          · rw [return_item_user_id]
            exact hop
        · intro c hc hcuid hcrd
          rw [return_item_user_id] at hcuid
          rw [return_item_borrowed]
          rcases List.mem_append.mp hc with h1 | h2
          · have hne' : c.item_id ≠ isbn := by
              intro he
              have hopen : isOpenFor c uid isbn = true :=
                isOpenFor_iff.mpr ⟨by rw [hcuid, huid], he, hcrd⟩
              have hfalse := hm1no c h1
              rw [hopen] at hfalse
              cases hfalse
            have hmemold : c ∈ s.checkouts := by
              rw [hdec]
              exact List.mem_append_left _ h1
            exact (List.mem_erase_of_ne hne').mpr (hbwd c hmemold hcuid hcrd)
          · rcases List.mem_cons.mp h2 with rfl | h3
            · simp [Checkout.close] at hcrd
            · have hne' : c.item_id ≠ isbn := by
                intro he
                have hopen : isOpenFor c uid isbn = true :=
                  isOpenFor_iff.mpr ⟨by rw [hcuid, huid], he, hcrd⟩
                have hfalse := hm2no c h3
                rw [hopen] at hfalse
                cases hfalse
              have hmemold : c ∈ s.checkouts := by
                rw [hdec]
                exact List.mem_append_right _ (List.mem_cons_of_mem _ h3)
              exact (List.mem_erase_of_ne hne').mpr (hbwd c hmemold hcuid hcrd)
      · have hne := hl2 u' hul2
        obtain ⟨hnd, hfwd, hbwd⟩ :=
          hI u' (by rw [husers]; exact List.mem_append_right _ (List.mem_cons_of_mem _ hul2))
        refine ⟨hnd, ?_, ?_⟩
        · intro iid hiid
          obtain ⟨c, hc, hop⟩ := hfwd iid hiid
          have hcne : c ≠ c0 := by
            intro he
            subst he
            obtain ⟨h1, -, -⟩ := isOpenFor_iff.mp hop
            exact hne (by rw [← h1]; exact hcu)
          refine ⟨c, ?_, hop⟩
          rw [hdec] at hc
          rcases List.mem_append.mp hc with h1 | h2
          · exact List.mem_append_left _ h1
          · rcases List.mem_cons.mp h2 with rfl | h3
            · exact absurd rfl hcne
            · exact List.mem_append_right _ (List.mem_cons_of_mem _ h3)
        · intro c hc hcuid hcrd
          rcases List.mem_append.mp hc with h1 | h2
          · exact hbwd c (by rw [hdec]; exact List.mem_append_left _ h1) hcuid hcrd
          · rcases List.mem_cons.mp h2 with rfl | h3
            · simp [Checkout.close] at hcrd
            · exact hbwd c
                (by rw [hdec]; exact List.mem_append_right _ (List.mem_cons_of_mem _ h3))
                hcuid hcrd

/-!
## Claim theorems
-/

/-- Claim C9: `borrow_item` is idempotent — calling it twice with the same
item id yields the same `borrowed_items` list as calling it once — and
`return_item` with an absent item id leaves `borrowed_items` unchanged. -/
theorem borrow_idempotent_return_noop (u : User) (iid : String) :
    ((u.borrow_item iid).borrow_item iid).borrowed_items
        = (u.borrow_item iid).borrowed_items ∧
    (iid ∉ u.borrowed_items → (u.return_item iid).borrowed_items = u.borrowed_items) := by
  constructor
  · rw [borrow_item_of_mem (mem_borrow_item u iid)]
  · intro h
    unfold User.return_item
    rw [if_neg (fun hc => h (List.mem_of_elem_eq_true hc))]

/-- Witness for C9 at a concrete user: returning an item that was never
borrowed leaves the empty held list empty. -/
theorem borrow_idempotent_return_noop_witness :
    (User.return_item { name := "N", user_id := "U", borrowed_items := [] } "I").borrowed_items
      = [] :=
  (borrow_idempotent_return_noop
    { name := "N", user_id := "U", borrowed_items := [] } "I").2 (by decide)

/-- Claim C10: `User.from_dict` copies the record's `borrowed_items`
sequence verbatim, without deduplication or validation; on a record that
lists the same item id twice the resulting user's `borrowed_items`
contains duplicates. -/
theorem from_dict_no_validation :
    (∀ d : UserRecord, (User.from_dict d).borrowed_items = d.borrowed_items) ∧
    ¬ (User.from_dict
        { name := "N", user_id := "U", borrowed_items := ["I", "I"] }).borrowed_items.Nodup :=
  ⟨fun _ => rfl, by decide⟩

/-- Claim C8: serializing a Book, User or Checkout to its record form and
deserializing reproduces the value field-for-field; an unset `return_date`
round-trips through `null` and a set one through its (nonempty) rendered
timestamp string. -/
theorem serialization_roundtrip (b : Book) (u : User) (c : Checkout) :
    Book.from_dict (Book.to_dict b) = b ∧
    User.from_dict (User.to_dict u) = u ∧
    Checkout.from_dict (Checkout.to_dict c) = c := by
  refine ⟨rfl, rfl, ?_⟩
  unfold Checkout.to_dict Checkout.from_dict
  cases hr : c.return_date with
  | none =>
    simp only [hr, Option.map_none']
    rw [fromiso_iso, fromiso_iso]
    cases c
    simp_all
  | some t =>
    simp only [hr, Option.map_some']
    rw [if_neg (iso_ne_empty t), fromiso_iso, fromiso_iso, fromiso_iso]
    cases c
    simp_all

/-- Claim C4: `checkout_book` fails with `UserNotFound` when the user id
is absent, with `ItemNotFound` when the user resolves but the isbn does
not, and with `ItemUnavailable` when both resolve but the book is
unavailable; in every failing case it raises and returns the state
completely unchanged — no new loan, no book or user mutation. -/
theorem checkout_failure_modes (s : LibState) (uid isbn : String) (now : Nat) :
    (get_user_by_id s.users uid = none →
      checkout_book s uid isbn now = (some (.userNotFound uid), s)) ∧
    (∀ u, get_user_by_id s.users uid = some u →
      get_book_by_isbn s.books isbn = none →
      checkout_book s uid isbn now = (some (.itemNotFound isbn), s)) ∧
    (∀ u b, get_user_by_id s.users uid = some u →
      get_book_by_isbn s.books isbn = some b → b.is_available = false →
      checkout_book s uid isbn now = (some (.itemUnavailable isbn), s)) := by
  refine ⟨fun hu => ?_, fun u hu hb => ?_, fun u b hu hb hav => ?_⟩
  · unfold checkout_book
    rw [hu]
  · unfold checkout_book
    rw [hu, hb]
  · simp [checkout_book, hu, hb, hav]

/-- Witness for C4: on a state with no users, checking out raises
`UserNotFound` and leaves the (empty) state unchanged. -/
theorem checkout_failure_modes_witness :
    checkout_book { books := [], users := [], checkouts := [] } "U1" "I1" 0
      = (some (.userNotFound "U1"), { books := [], users := [], checkouts := [] }) :=
  (checkout_failure_modes { books := [], users := [], checkouts := [] } "U1" "I1" 0).1 rfl

/-- Claim C6: when user and book resolve but no ledger entry matches
`(user_id, isbn)` with `return_date` unset, `return_book` fails with
`NoActiveLoan` and mutates nothing: the state is returned unchanged. -/
theorem return_failure_atomicity (s : LibState) (uid isbn : String) (now : Nat)
    (u : User) (b : Book)
    (hu : get_user_by_id s.users uid = some u)
    (hb : get_book_by_isbn s.books isbn = some b)
    (hno : ∀ c ∈ s.checkouts, isOpenFor c uid isbn = false) :
    return_book s uid isbn now = (some (.noActiveLoan uid isbn), s) := by
  unfold return_book
  rw [hu, hb]
  rw [List.find?_eq_none.mpr (fun c hc => by simp [hno c hc])]

/-- Witness for C6, realising the second scenario of the claim: after a
successful return of ISBN1 by U1, a second return of the same pair fails
with `NoActiveLoan` and changes nothing. -/
theorem return_failure_atomicity_witness :
    return_book
      (return_book
        { books := [{ title := "T", author := "A", item_id := "ISBN1", is_available := false }],
          users := [{ name := "N", user_id := "U1", borrowed_items := ["ISBN1"] }],
          checkouts := [{ user_id := "U1", item_id := "ISBN1", checkout_date := 0,
                          due_date := 14, return_date := none }] }
        "U1" "ISBN1" 5).2
      "U1" "ISBN1" 6
    = (some (.noActiveLoan "U1" "ISBN1"),
      (return_book
        { books := [{ title := "T", author := "A", item_id := "ISBN1", is_available := false }],
          users := [{ name := "N", user_id := "U1", borrowed_items := ["ISBN1"] }],
          checkouts := [{ user_id := "U1", item_id := "ISBN1", checkout_date := 0,
                          due_date := 14, return_date := none }] }
        "U1" "ISBN1" 5).2) :=
  return_failure_atomicity _ "U1" "ISBN1" 6
    { name := "N", user_id := "U1", borrowed_items := [] }
    { title := "T", author := "A", item_id := "ISBN1", is_available := true }
    (by decide) (by decide) (by decide)

/-- Claim C3: when the user resolves, the book resolves and is available,
`checkout_book` appends exactly one new loan at the end of the ledger with
that user and item, `checkout_time = now`, `due_time = now + 14` days and
`return_time` unset; it sets the book's availability to false and puts
the isbn into the user's held-item list. -/
theorem checkout_success_postcondition (s : LibState) (uid isbn : String) (now : Nat)
    (u : User) (b : Book)
    (hu : get_user_by_id s.users uid = some u)
    (hb : get_book_by_isbn s.books isbn = some b)
    (hav : b.is_available = true) :
    (checkout_book s uid isbn now).1 = none ∧
    (checkout_book s uid isbn now).2.checkouts
        = s.checkouts ++ [{ user_id := uid, item_id := isbn, checkout_date := now,
                            due_date := now + loanPeriod, return_date := none }] ∧
    get_book_by_isbn (checkout_book s uid isbn now).2.books isbn
        = some { b with is_available := false } ∧
    get_user_by_id (checkout_book s uid isbn now).2.users uid
        = some (u.borrow_item isbn) ∧
    isbn ∈ (u.borrow_item isbn).borrowed_items := by
  have hck : checkout_book s uid isbn now =
      (none,
        { books := setAvail s.books isbn false,
          users := updateUser s.users uid (fun u => u.borrow_item isbn),
          checkouts := s.checkouts ++ [Checkout.new uid isbn now] }) := by
    simp [checkout_book, hu, hb, hav]
  rw [hck]
  exact ⟨rfl, rfl, get_book_setAvail false hb,
    get_user_updateUser _ hu (borrow_item_user_id u isbn), mem_borrow_item u isbn⟩

/-- Witness for C3: a concrete checkout appends the expected loan and
flips the book and user as described. -/
theorem checkout_success_postcondition_witness :
    (checkout_book
        { books := [{ title := "T", author := "A", item_id := "I", is_available := true }],
          users := [{ name := "N", user_id := "U", borrowed_items := [] }],
          checkouts := [] } "U" "I" 3).2.checkouts
      = [{ user_id := "U", item_id := "I", checkout_date := 3, due_date := 17,
           return_date := none }] := by
  have h := (checkout_success_postcondition
    { books := [{ title := "T", author := "A", item_id := "I", is_available := true }],
      users := [{ name := "N", user_id := "U", borrowed_items := [] }],
      checkouts := [] } "U" "I" 3
    { name := "N", user_id := "U", borrowed_items := [] }
    { title := "T", author := "A", item_id := "I", is_available := true }
    (by decide) (by decide) rfl).2.1
  simpa [loanPeriod] using h

/-- Claim C5: when user and book resolve and some open ledger entry
matches the pair, `return_book` closes the first matching entry in ledger
order by setting its `return_time` to now, sets the book available, and
removes the isbn from the user's held-item list. -/
theorem return_success_postcondition (s : LibState) (uid isbn : String) (now : Nat)
    (u : User) (b : Book) (l1 : List Checkout) (c : Checkout) (l2 : List Checkout)
    (hu : get_user_by_id s.users uid = some u)
    (hb : get_book_by_isbn s.books isbn = some b)
    (hcs : s.checkouts = l1 ++ c :: l2)
    (hl1 : ∀ c' ∈ l1, isOpenFor c' uid isbn = false)
    (hc : isOpenFor c uid isbn = true) :
    (return_book s uid isbn now).1 = none ∧
    (return_book s uid isbn now).2.checkouts
        = l1 ++ { c with return_date := some now } :: l2 ∧
    get_book_by_isbn (return_book s uid isbn now).2.books isbn
        = some { b with is_available := true } ∧
    get_user_by_id (return_book s uid isbn now).2.users uid
        = some { u with borrowed_items := u.borrowed_items.erase isbn } := by
  have hfind : s.checkouts.find? (fun c' => isOpenFor c' uid isbn) = some c := by
    rw [hcs]
    exact find?_first _ l1 c l2 hl1 hc
  have hret : return_book s uid isbn now =
      (none,
        { books := setAvail s.books isbn true,
          users := updateUser s.users uid (fun u => u.return_item isbn),
          checkouts := closeFirst s.checkouts uid isbn now }) := by
    simp [return_book, hu, hb, hfind]
  rw [hret]
  refine ⟨rfl, ?_, get_book_setAvail true hb, ?_⟩
  · show closeFirst s.checkouts uid isbn now = _
    rw [hcs, closeFirst_append l1 c l2 uid isbn now hl1 hc]
    rfl
  · have hg := get_user_updateUser (fun u => u.return_item isbn) hu (return_item_user_id u isbn)
    simp only at hg
    rw [return_item_eq] at hg
    exact hg

/-- Witness for C5: a concrete return closes the open loan, frees the
book and empties the user's held list. -/
theorem return_success_postcondition_witness :
    (return_book
        { books := [{ title := "T", author := "A", item_id := "I", is_available := false }],
          users := [{ name := "N", user_id := "U", borrowed_items := ["I"] }],
          checkouts := [{ user_id := "U", item_id := "I", checkout_date := 0,
                          due_date := 14, return_date := none }] } "U" "I" 9).2.checkouts
      = [{ user_id := "U", item_id := "I", checkout_date := 0, due_date := 14,
           return_date := some 9 }] := by
  have h := (return_success_postcondition
    { books := [{ title := "T", author := "A", item_id := "I", is_available := false }],
      users := [{ name := "N", user_id := "U", borrowed_items := ["I"] }],
      checkouts := [{ user_id := "U", item_id := "I", checkout_date := 0,
                      due_date := 14, return_date := none }] } "U" "I" 9
    { name := "N", user_id := "U", borrowed_items := ["I"] }
    { title := "T", author := "A", item_id := "I", is_available := false }
    []
    { user_id := "U", item_id := "I", checkout_date := 0, due_date := 14,
      return_date := none }
    []
    (by decide) (by decide) rfl (by intro c' hc'; cases hc') (by decide)).2.1
  simpa using h

/-- Claim C7: every `checkout_book` and `return_book` call either leaves
the ledger unchanged or (checkout) appends exactly one new entry at the
end or (return) sets `return_date` on exactly one existing open entry,
keeping its other fields and every other entry intact; and every book
whose isbn is not the one named, and every user whose id is not the one
named, is still present unchanged in the resulting state. -/
theorem ledger_append_only_frame (s : LibState) (uid isbn : String) (now : Nat) :
    ((checkout_book s uid isbn now).2.checkouts = s.checkouts ∨
      (checkout_book s uid isbn now).2.checkouts
        = s.checkouts ++ [Checkout.new uid isbn now]) ∧
    ((return_book s uid isbn now).2.checkouts = s.checkouts ∨
      ∃ l1 c l2, s.checkouts = l1 ++ c :: l2 ∧ c.return_date = none ∧
        (return_book s uid isbn now).2.checkouts
          = l1 ++ { c with return_date := some now } :: l2) ∧
    (∀ b ∈ s.books, b.item_id ≠ isbn → b ∈ (checkout_book s uid isbn now).2.books) ∧
    (∀ b ∈ s.books, b.item_id ≠ isbn → b ∈ (return_book s uid isbn now).2.books) ∧
    (∀ u ∈ s.users, u.user_id ≠ uid → u ∈ (checkout_book s uid isbn now).2.users) ∧
    (∀ u ∈ s.users, u.user_id ≠ uid → u ∈ (return_book s uid isbn now).2.users) := by
  refine ⟨?_, ?_, ?_, ?_, ?_, ?_⟩
  · rcases checkout_cases s uid isbn now with h | ⟨u0, b0, _, _, _, hck, _, _⟩
    · left; rw [h]
    · right; exact hck
  · rcases return_cases s uid isbn now with h | ⟨u0, b0, c0, _, _, hf, hcs, _, _⟩
    · left; rw [h]
    · obtain ⟨m1, m2, hdec, h1, hp⟩ := find?_decomp _ _ _ hf
      right
      refine ⟨m1, c0, m2, hdec, (isOpenFor_iff.mp hp).2.2, ?_⟩
      rw [hcs, hdec, closeFirst_append m1 c0 m2 uid isbn now h1 hp]
      rfl
  · intro b hm hne
    rcases checkout_cases s uid isbn now with h | ⟨u0, b0, _, _, _, _, hbk, _⟩
    · rw [h]; exact hm
    · rw [hbk]; exact mem_setAvail_of_ne hm hne
  · intro b hm hne
    rcases return_cases s uid isbn now with h | ⟨u0, b0, c0, _, _, _, _, hbk, _⟩
    · rw [h]; exact hm
    · rw [hbk]; exact mem_setAvail_of_ne hm hne
  · intro u hm hne
    rcases checkout_cases s uid isbn now with h | ⟨u0, b0, _, _, _, _, _, hus⟩
    · rw [h]; exact hm
    · rw [hus]; exact mem_updateUser_of_ne hm hne
  · intro u hm hne
    rcases return_cases s uid isbn now with h | ⟨u0, b0, c0, _, _, _, _, _, hus⟩
    · rw [h]; exact hm
    · rw [hus]; exact mem_updateUser_of_ne hm hne

/-- Counterexample to C1 as stated: this state satisfies the claimed
precondition (every book is unavailable iff exactly one open checkout of
its isbn exists — here the book is available and has two open checkouts,
so the iff holds vacuously), yet a successful `return_book` yields a
state where the book is available while exactly one open checkout
remains, breaking the iff. -/
theorem availability_invariant_cex :
    availInv
      { books := [{ title := "T", author := "A", item_id := "I", is_available := true }],
        users := [{ name := "N", user_id := "U", borrowed_items := ["I"] }],
        checkouts := [{ user_id := "U", item_id := "I", checkout_date := 0,
                        due_date := 14, return_date := none },
                      { user_id := "U", item_id := "I", checkout_date := 1,
                        due_date := 15, return_date := none }] } ∧
    (return_book
      { books := [{ title := "T", author := "A", item_id := "I", is_available := true }],
        users := [{ name := "N", user_id := "U", borrowed_items := ["I"] }],
        checkouts := [{ user_id := "U", item_id := "I", checkout_date := 0,
                        due_date := 14, return_date := none },
                      { user_id := "U", item_id := "I", checkout_date := 1,
                        due_date := 15, return_date := none }] } "U" "I" 20).1 = none ∧
    ¬ availInv
      (return_book
        { books := [{ title := "T", author := "A", item_id := "I", is_available := true }],
          users := [{ name := "N", user_id := "U", borrowed_items := ["I"] }],
          checkouts := [{ user_id := "U", item_id := "I", checkout_date := 0,
                          due_date := 14, return_date := none },
                        { user_id := "U", item_id := "I", checkout_date := 1,
                          due_date := 15, return_date := none }] } "U" "I" 20).2 := by
  decide

/-- Claim C1 (amended): starting from any state with pairwise-distinct
book ids in which every available book has zero open checkouts and every
unavailable book exactly one, any sequence of checkout/return operations
(successful or failed) preserves that strengthened property, and hence in
every reached state a book is unavailable iff exactly one open checkout
of its isbn exists. -/
theorem availability_invariant_amended (s : LibState) (ops : List Op)
    (hN : booksNodup s) (hI : availInvStrong s) :
    availInvStrong (runOps s ops) ∧ availInv (runOps s ops) := by
  suffices h : booksNodup (runOps s ops) ∧ availInvStrong (runOps s ops) by
    exact ⟨h.2, availInvStrong_to_availInv h.2⟩
  induction ops generalizing s with
  | nil => exact ⟨hN, hI⟩
  | cons op ops ih =>
    have hstep : booksNodup (applyOp s op) ∧ availInvStrong (applyOp s op) := by
      cases op with
      | checkout uid isbn now => exact checkout_avail_preserved s uid isbn now hN hI
      | ret uid isbn now => exact return_avail_preserved s uid isbn now hN hI
    exact ih (applyOp s op) hstep.1 hstep.2

/-- Witness for the amended C1: a concrete checkout-then-return sequence
keeps the availability/ledger iff. -/
theorem availability_invariant_amended_witness :
    availInv
      (runOps
        { books := [{ title := "T", author := "A", item_id := "I", is_available := true }],
          users := [{ name := "N", user_id := "U", borrowed_items := [] }],
          checkouts := [] }
        [Op.checkout "U" "I" 0, Op.ret "U" "I" 5]) :=
  (availability_invariant_amended
    { books := [{ title := "T", author := "A", item_id := "I", is_available := true }],
      users := [{ name := "N", user_id := "U", borrowed_items := [] }],
      checkouts := [] }
    [Op.checkout "U" "I" 0, Op.ret "U" "I" 5] (by decide) (by decide)).2

/-- Counterexample to C2 as stated: this state satisfies the claimed
precondition (the user's duplicate-free `borrowed_items` equals, as a
set, the item ids of the user's open checkouts — here two open checkouts
of the same pair both have item id I, and the list is [I]), yet a
successful `return_book` closes only the first open checkout and removes
I from the list while the second open checkout remains, breaking the set
equality. -/
theorem held_set_invariant_cex :
    heldInv
      { books := [{ title := "T", author := "A", item_id := "I", is_available := false }],
        users := [{ name := "N", user_id := "U", borrowed_items := ["I"] }],
        checkouts := [{ user_id := "U", item_id := "I", checkout_date := 0,
                        due_date := 14, return_date := none },
                      { user_id := "U", item_id := "I", checkout_date := 1,
                        due_date := 15, return_date := none }] } ∧
    (return_book
      { books := [{ title := "T", author := "A", item_id := "I", is_available := false }],
        users := [{ name := "N", user_id := "U", borrowed_items := ["I"] }],
        checkouts := [{ user_id := "U", item_id := "I", checkout_date := 0,
                        due_date := 14, return_date := none },
                      { user_id := "U", item_id := "I", checkout_date := 1,
                        due_date := 15, return_date := none }] } "U" "I" 20).1 = none ∧
    ¬ heldInv
      (return_book
        { books := [{ title := "T", author := "A", item_id := "I", is_available := false }],
          users := [{ name := "N", user_id := "U", borrowed_items := ["I"] }],
          checkouts := [{ user_id := "U", item_id := "I", checkout_date := 0,
                          due_date := 14, return_date := none },
                        { user_id := "U", item_id := "I", checkout_date := 1,
                          due_date := 15, return_date := none }] } "U" "I" 20).2 := by
  decide

/-- Claim C2 (amended): starting from any state with pairwise-distinct
user ids in which each (user, item) pair has at most one open checkout
and every user's `borrowed_items` is duplicate-free and equals, as a set,
the item ids of that user's open checkouts, every `checkout_book` and
`return_book` call (successful or failing) yields a state whose users'
`borrowed_items` again are duplicate-free and equal their open-checkout
item sets. -/
theorem held_set_invariant_amended (s : LibState) (uid isbn : String) (now : Nat)
    (hN : usersNodup s) (hP : pairAtMostOne s.checkouts) (hI : heldInv s) :
    heldInv (checkout_book s uid isbn now).2 ∧ heldInv (return_book s uid isbn now).2 :=
  ⟨checkout_held_preserved s uid isbn now hN hI,
    return_held_preserved s uid isbn now hN hP hI⟩

/-- Witness for the amended C2: concrete checkout from a consistent
state keeps the held-set property. -/
theorem held_set_invariant_amended_witness :
    heldInv
      (checkout_book
        { books := [{ title := "T", author := "A", item_id := "I", is_available := true }],
          users := [{ name := "N", user_id := "U", borrowed_items := [] }],
          checkouts := [] } "U" "I" 0).2 :=
  (held_set_invariant_amended
    { books := [{ title := "T", author := "A", item_id := "I", is_available := true }],
      users := [{ name := "N", user_id := "U", borrowed_items := [] }],
      checkouts := [] } "U" "I" 0 (by decide) (by decide) (by decide)).1

/-- Witness for C7 at a concrete state: a checkout of item I by user U
leaves the other user's record untouched and present. -/
theorem ledger_append_only_frame_witness :
    ({ name := "M", user_id := "X", borrowed_items := [] } : User)
      ∈ (checkout_book
          { books := [{ title := "T", author := "A", item_id := "I", is_available := true }],
            users := [{ name := "N", user_id := "U", borrowed_items := [] },
                      { name := "M", user_id := "X", borrowed_items := [] }],
            checkouts := [] } "U" "I" 0).2.users :=
  (ledger_append_only_frame
    { books := [{ title := "T", author := "A", item_id := "I", is_available := true }],
      users := [{ name := "N", user_id := "U", borrowed_items := [] },
                { name := "M", user_id := "X", borrowed_items := [] }],
      checkouts := [] } "U" "I" 0).2.2.2.2.1
    { name := "M", user_id := "X", borrowed_items := [] } (by decide) (by decide)

/-- Witness for C8 at a concrete closed loan: the round trip preserves
the set `return_date`. -/
theorem serialization_roundtrip_witness :
    Checkout.from_dict
      (Checkout.to_dict
        { user_id := "U", item_id := "I", checkout_date := 5, due_date := 19,
          return_date := some 7 })
      = { user_id := "U", item_id := "I", checkout_date := 5, due_date := 19,
          return_date := some 7 } :=
  (serialization_roundtrip
    { title := "T", author := "A", item_id := "I", is_available := true }
    { name := "N", user_id := "U", borrowed_items := [] }
    { user_id := "U", item_id := "I", checkout_date := 5, due_date := 19,
      return_date := some 7 }).2.2

/-- Witness for C10 at a concrete record: `borrowed_items` is copied
verbatim. -/
theorem from_dict_no_validation_witness :
    (User.from_dict
      { name := "N", user_id := "U", borrowed_items := ["A", "B"] }).borrowed_items
      = ["A", "B"] :=
  from_dict_no_validation.1 { name := "N", user_id := "U", borrowed_items := ["A", "B"] }

end Library
